import Mathlib

/-!
Shallow embedding of the metaverse ws_layer core (space_broadcaster.py,
chat.py, media.py, invite.py, event_types.py) and proofs about it.

Connections (WebSocket handles) are abstracted as natural numbers.
Python dicts keyed by strings are embedded as association lists.
Awaited I/O calls are parameterized by environments recording the outcome
each external call would produce; the effects a function performs are
returned as an explicit ordered action trace.
-/

namespace Metaverse

/-- A WebSocket connection handle, abstracted to an id. -/
abbrev Conn := Nat

/-- Dict lookup on an association list (`d.get(k)`). -/
def lookupA {β : Type} (m : List (String × β)) (k : String) : Option β :=
  match m with
  | [] => none
  | (k2, v) :: rest => if k2 = k then some v else lookupA rest k

/-- Dict insert / overwrite (`d[k] = v`). -/
def insertA {β : Type} (m : List (String × β)) (k : String) (v : β) :
    List (String × β) :=
  match m with
  | [] => [(k, v)]
  | (k2, w) :: rest =>
    if k2 = k then (k, v) :: rest else (k2, w) :: insertA rest k v

/-- Dict delete (`del d[k]` / `d.pop(k, None)`). -/
def eraseA {β : Type} (m : List (String × β)) (k : String) : List (String × β) :=
  m.filter (fun p => ¬ (p.1 = k))

/-- Key membership (`k in d`). -/
def containsA {β : Type} (m : List (String × β)) (k : String) : Bool :=
  (lookupA m k).isSome

/-- Python truthiness of an optional string: `None` and `""` are falsy. -/
def falsyO (s : Option String) : Bool :=
  match s with
  | none => true
  | some v => v = ""

/-- `str.lower()` on the ASCII event names, as a character map (kept
kernel-computable). -/
def lowerStr (s : String) : String := String.mk (s.data.map Char.toLower)

/-! ## Chat pipeline (chat.py) -/

/-- A user row as returned by `get_user_by_id`, restricted to the fields the
chat pipeline reads (`user_name`). -/
structure UserRec where
  id : String
  user_name : String
deriving Repr, DecidableEq

/-- JSON scalar values appearing in the event payloads built by chat.py. -/
inductive JVal where
  | s (v : String)
  | n (v : Nat)
  | b (v : Bool)
  | null
deriving Repr, DecidableEq

/-- An optional string rendered into a JSON value (`None` becomes null). -/
def jopt (o : Option String) : JVal :=
  match o with
  | none => JVal.null
  | some v => JVal.s v

/-- The `Message` dataclass of chat.py. Timestamps are abstracted to `Nat`. -/
structure Message where
  message_id : String
  sender_id : String
  message_type : String
  content : String
  timestamp : Nat
  space_id : Option String := none
  receiver_id : Option String := none
  status : String := "pending"
  retry_count : Nat := 0
deriving Repr, DecidableEq

/-- The inbound `message_data` dict handed to `process_message`; absent dict
keys are `none`. -/
structure MessageData where
  sender_id : Option String := none
  content : Option String := none
  message_type : Option String := none
  space_id : Option String := none
  receiver_id : Option String := none
deriving Repr, DecidableEq

/-- The pydantic `MessageValidator` model of chat.py. -/
structure MessageValidator where
  sender_id : String
  content : String
  message_type : String
  space_id : Option String
  receiver_id : Option String
deriving Repr, DecidableEq

/-- Field-level pydantic validation of `MessageValidator`: required fields
present, `sender_id` min_length 1, `content` length 1..5000, `message_type`
matching the pattern `(space|private)`. -/
def pydanticCheck (d : MessageData) : Option MessageValidator :=
  match d.sender_id, d.content, d.message_type with
  | some s, some c, some t =>
    if 1 ≤ s.length ∧ 1 ≤ c.length ∧ c.length ≤ 5000 ∧
        (t = "space" ∨ t = "private") then
      some ⟨s, c, t, d.space_id, d.receiver_id⟩
    else none
  | _, _, _ => none

/-- `MessageValidator.validate_message`: pydantic validation plus the two
kind-specific requirement checks (note the Python truthiness test: an empty
`space_id`/`receiver_id` string also fails). -/
def validate_message (d : MessageData) :
    Option MessageValidator × Nat × String :=
  match pydanticCheck d with
  | none => (none, 400, "validation error")
  | some v =>
    if v.message_type = "space" ∧ falsyO v.space_id then
      (none, 400, "space_id required for space messages")
    else if v.message_type = "private" ∧ falsyO v.receiver_id then
      (none, 400, "receiver_id required for private messages")
    else (some v, 200, "Valid")

/-- Environment for one run of the pipeline: outcomes of every external call
(`get_user_by_id`, `get_space_by_id`, the global `user_ws_mapping`, cache
saves per attempt, the space queue put, transport sends, database saves per
attempt). -/
structure ChatEnv where
  getUser : String → Option UserRec
  getSpace : String → Bool
  userWs : List (String × Conn)
  cacheSaveOk : Nat → Bool
  queuePutRaises : Bool
  sendRaises : Conn → Bool
  dbSaveOk : Nat → Bool

/-- Observable effects performed by the pipeline, in program order. -/
inductive ChatAct where
  | cacheSave (key : String) (ok : Bool)
  | cacheDelete (key : String)
  | queuePut (ev : List (String × JVal))
  | send (c : Conn) (frame : List (String × JVal))
  | sendFailed (c : Conn)
  | dbSave (id : String) (ok : Bool)
  | dlqPut (m : Message)
  | schedulePersist (m : Message)
deriving Repr, DecidableEq

/-- The `UserEvent` dataclass (event_types.py) as built by the private-message
branch of `_broadcast_message`. -/
structure UserEvent where
  event_type : String
  user_id : String
  payload : List (String × JVal)
  timestamp : Nat
deriving Repr, DecidableEq

/-- `UserEvent.to_dict` (event_types.py): event, user_id, payload splat,
timestamp. -/
def UserEvent.toDict (e : UserEvent) : List (String × JVal) :=
  ("event", JVal.s e.event_type) :: ("user_id", JVal.s e.user_id) ::
    e.payload ++ [("timestamp", JVal.n e.timestamp)]

/-- `UserEvent.to_json` (event_types.py lines 70-71) is declared as
`def to_json(self)` with no keyword parameters; a Python call that passes any
keyword argument (chat.py invokes it as `to_json(cls=CustomEncoder)`) raises
`TypeError` instead of returning the serialized dict. The `kwargs` argument
records the keyword names supplied at the call site. -/
def UserEvent.to_json (e : UserEvent) (kwargs : List String) :
    Except String (List (String × JVal)) :=
  match kwargs with
  | [] => Except.ok e.toDict
  | _ => Except.error "TypeError: to_json got an unexpected keyword argument"

/-- One transport send attempt inside a `try/except` that swallows failures:
if serialization already raised, or the send itself raises, no frame is
delivered. -/
def sendSwallow (env : ChatEnv) (c : Conn)
    (j : Except String (List (String × JVal))) : List ChatAct :=
  match j with
  | Except.error _ => [ChatAct.sendFailed c]
  | Except.ok frame =>
    if env.sendRaises c then [ChatAct.sendFailed c] else [ChatAct.send c frame]

/-- `MessagePipeline._authenticate_message`: the sender must resolve, a space
message needs an existing space and a private message an existing receiver. -/
def authenticate_message (env : ChatEnv) (v : MessageValidator) : Bool :=
  (env.getUser v.sender_id).isSome &&
    (if v.message_type = "space" then env.getSpace (v.space_id.getD "")
     else true) &&
    (if v.message_type = "private" then
      (env.getUser (v.receiver_id.getD "")).isSome
     else true)

/-- The retry loop of `MessagePipeline._cache_with_retry`: `rem` attempts
remain and `k` attempts were already made. -/
def cacheGo (env : ChatEnv) (key : String) : Nat → Nat → List ChatAct × Bool
  | 0, _ => ([], false)
  | rem + 1, k =>
    if env.cacheSaveOk k then ([ChatAct.cacheSave key true], true)
    else
      let r := cacheGo env key rem (k + 1)
      (ChatAct.cacheSave key false :: r.1, r.2)

/-- `MessagePipeline._cache_with_retry` (3 attempts): on success the message
status becomes `cached`; failure is non-fatal. -/
def cache_with_retry (env : ChatEnv) (m : Message) :
    List ChatAct × Bool × Message :=
  let r := cacheGo env ("msg:" ++ m.message_id) 3 0
  (r.1, r.2, if r.2 then { m with status := "cached" } else m)

/-- The space-kind branch of `_broadcast_message`: build the CHAT_MESSAGE
`SpaceEvent` dict, enrich with the sender name, put it on
`ws_manager.space_updates`. -/
def broadcastSpace (env : ChatEnv) (m : Message) : List ChatAct × Bool :=
  let basePayload : List (String × JVal) :=
    [("message_id", JVal.s m.message_id), ("user_id", JVal.s m.sender_id),
     ("message", JVal.s m.content), ("timestamp", JVal.n m.timestamp)]
  let payload :=
    match env.getUser m.sender_id with
    | some u => basePayload ++ [("user_name", JVal.s u.user_name)]
    | none => basePayload
  let evDict : List (String × JVal) :=
    ("event", JVal.s "CHAT_MESSAGE") :: ("space_id", jopt m.space_id) ::
      payload ++ [("timestamp", JVal.n m.timestamp)]
  if env.queuePutRaises then ([], false)
  else ([ChatAct.queuePut evDict], true)

/-- The private-kind branch of `_broadcast_message`: build the receiver
PRIVATE_MESSAGE event and the sender confirmation event; each send calls
`to_json(cls=CustomEncoder)` inside a swallowed `try/except`. -/
def broadcastPrivate (env : ChatEnv) (m : Message) : List ChatAct × Bool :=
  let basePayload : List (String × JVal) :=
    [("message_id", JVal.s m.message_id), ("from_user_id", JVal.s m.sender_id),
     ("message", JVal.s m.content), ("timestamp", JVal.n m.timestamp)]
  let payload :=
    match env.getUser m.sender_id with
    | some u => basePayload ++ [("from_user_name", JVal.s u.user_name)]
    | none => basePayload
  let ev : UserEvent :=
    ⟨"PRIVATE_MESSAGE", m.receiver_id.getD "", payload, m.timestamp⟩
  let recvActs :=
    match lookupA env.userWs (m.receiver_id.getD "") with
    | some c => sendSwallow env c (ev.to_json ["cls"])
    | none => []
  let confirmation : UserEvent :=
    ⟨"PRIVATE_MESSAGE", m.sender_id,
     [("message_id", JVal.s m.message_id), ("to_user_id", jopt m.receiver_id),
      ("message", JVal.s m.content), ("sent", JVal.b true),
      ("timestamp", JVal.n m.timestamp)], m.timestamp⟩
  let confActs :=
    match lookupA env.userWs m.sender_id with
    | some c => sendSwallow env c (confirmation.to_json ["cls"])
    | none => []
  (recvActs ++ confActs, true)

/-- `MessagePipeline._broadcast_message`. -/
def broadcast_message (env : ChatEnv) (m : Message) : List ChatAct × Bool :=
  if m.message_type = "space" then broadcastSpace env m
  else broadcastPrivate env m

/-- `MessagePipeline._rollback_message`: delete the cache entry, mark the
message rolled back. -/
def rollback_message (m : Message) : List ChatAct × Message :=
  ([ChatAct.cacheDelete ("msg:" ++ m.message_id)],
   { m with status := "rolled_back" })

/-- Result of `MessagePipeline.process_message`, with the stage outcomes
recorded alongside the returned pair and the action trace. -/
structure PipeOut where
  ok : Bool
  result : String
  msg : Option Message
  trace : List ChatAct
  broadcastAttempted : Bool
  broadcastOk : Bool
  persistScheduled : Bool
deriving Repr, DecidableEq

/-- `MessagePipeline.process_message`: validate, authenticate, cache (3
attempts, non-fatal), broadcast, rollback on broadcast failure, otherwise
mark broadcast and schedule the detached persistence task. `freshId` is the
uuid4 drawn for this message and `now` the event-loop time. -/
def process_message (env : ChatEnv) (freshId : String) (now : Nat)
    (d : MessageData) : PipeOut :=
  match validate_message d with
  | (none, _, err) => ⟨false, err, none, [], false, false, false⟩
  | (some v, _, _) =>
    if authenticate_message env v then
      let m0 : Message :=
        ⟨freshId, v.sender_id, v.message_type, v.content, now, v.space_id,
         v.receiver_id, "validated", 0⟩
      let cr := cache_with_retry env m0
      let m1 := cr.2.2
      let br := broadcast_message env m1
      if br.2 then
        let m2 := { m1 with status := "broadcast" }
        ⟨true, m2.message_id, some m2,
         cr.1 ++ br.1 ++ [ChatAct.schedulePersist m2], true, true, true⟩
      else
        let rb := rollback_message m1
        ⟨false, "Broadcast failed", some rb.2, cr.1 ++ br.1 ++ rb.1,
         true, false, false⟩
    else ⟨false, "Authentication failed", none, [], false, false, false⟩

/-- Result of the detached `_persist_with_retry` task: action trace, final
message, dead-letter-queue appends, and the increment applied to
`stats.failed`. -/
structure PersistOut where
  trace : List ChatAct
  final : Message
  dlq : List Message
  failedInc : Nat
deriving Repr, DecidableEq

/-- The retry loop of `_persist_with_retry`: on a successful save the status
becomes `persisted` and the cache entry is deleted; once attempts are
exhausted the failed counter is incremented and the message is put on
`db_retry_queue` (the dead-letter queue) with its status untouched. -/
def persistGo (env : ChatEnv) (key : String) (m : Message) :
    Nat → Nat → PersistOut
  | 0, _ => ⟨[ChatAct.dlqPut m], m, [m], 1⟩
  | rem + 1, k =>
    if env.dbSaveOk k then
      ⟨[ChatAct.dbSave m.message_id true, ChatAct.cacheDelete key],
       { m with status := "persisted" }, [], 0⟩
    else
      let r := persistGo env key m rem (k + 1)
      ⟨ChatAct.dbSave m.message_id false :: r.trace, r.final, r.dlq,
       r.failedInc⟩

/-- `MessagePipeline._persist_with_retry` with its default of 5 attempts. -/
def persist_with_retry (env : ChatEnv) (m : Message) : PersistOut :=
  persistGo env ("msg:" ++ m.message_id) m 5 0

/-! ## Per-connection ingress parser (space_broadcaster.message_parser) -/

/-- A position entry of `position_map`. -/
structure Pos where
  x : Int
  y : Int
deriving Repr, DecidableEq

/-- An event dict placed on `space_updates` by the parser or the media
manager; unused keys keep their defaults. -/
structure QEvent where
  event : String
  user_id : String := ""
  space_id : String := ""
  user_data : Option UserRec := none
  x : Int := 0
  y : Int := 0
  direction : String := ""
  isMoving : Bool := false
  user_name : String := ""
  stream_id : String := ""
  timestamp : Nat := 0
  exclude_ws : Option Conn := none
deriving Repr, DecidableEq

/-- An inbound JSON frame; keys missing from the dict are `none`. -/
structure Frame where
  event : Option String := none
  user_id : Option String := none
  space_id : Option String := none
  nx : Option Int := none
  ny : Option Int := none
  direction : Option String := none
  isMoving : Option Bool := none
  signal_type : Option String := none
  to_user_id : Option String := none
  data : List (String × String) := []
deriving Repr, DecidableEq

/-- Outbound reply frames the parser writes on its own connection. -/
inductive OutFrame where
  | errorMsg (message : String)
  | spaceState (space_id : String) (map_id : Option String)
      (users : List (String × UserRec)) (positions : List (String × Pos))
      (mediaInfo : List (String × String))
  | positionMoveAck (user_id space_id : String) (nx ny : Int)
deriving Repr, DecidableEq

/-- Observable actions of one iteration of `message_parser`. Hand-offs to the
chat pipeline and the media manager are recorded as actions; their own
effects are modelled by `process_message` and the media functions. -/
inductive PAction where
  | sendText (c : Conn) (f : OutFrame)
  | enqueue (e : QEvent)
  | close (c : Conn)
  | chatSpace (d : List (String × String)) (sender : Option String)
      (space : String)
  | chatPrivate (d : List (String × String)) (sender : Option String)
  | webrtcRelay (signalType : String) (fromUser : Option String)
      (toUser : String) (space : String)
  | mediaStart (kind : String) (u : Option String) (space : String)
  | mediaStop (kind : String) (u : Option String) (space : String)
  | mediaCleanup (u : String)
deriving Repr, DecidableEq

/-- Loop control after one parser iteration: `stop` models the `return`
statements that leave `message_parser`. -/
inductive PCtl where
  | next
  | stop
deriving Repr, DecidableEq

/-- The state read and written by one parser task: its local `user_id`
variable, the global `user_ws_mapping`, and the broadcaster fields. -/
structure PState where
  bound : Option String := none
  userWs : List (String × Conn) := []
  users : List (String × UserRec) := []
  position_map : List (String × Pos) := []
  map_id : Option String := none
  subscribers : List Conn := []
  queue : List QEvent := []
deriving Repr, DecidableEq

/-- Environment of the parser: `get_user_by_id`, `get_space_by_id` (outer
option: row exists; inner option: the map-id field chain, `None` when every
`map_id` variant is absent or falsy), the media info snapshot sent inside
`space_state`, and the outcome the chat manager reports for a hand-off. -/
structure PEnv where
  getUser : String → Option UserRec
  spaceMapField : String → Option (Option String)
  mediaInfo : List (String × String)
  chatSpaceOutcome : Bool × String
  chatPrivateOutcome : Bool × String

/-- Result of one parser iteration. -/
structure StepOut where
  st : PState
  acts : List PAction
  ctl : PCtl
deriving Repr, DecidableEq

/-- The event names the `if/elif` chain of `message_parser` handles. -/
def handledEvents : List String :=
  ["join", "position_move", "send_chat_message", "send_private_message",
   "webrtc_signal", "start_audio_stream", "stop_audio_stream",
   "start_video_stream", "stop_video_stream", "start_screen_stream",
   "stop_screen_stream", "left"]

/-- The `join` branch of `message_parser`. -/
def joinStep (env : PEnv) (spaceId : String) (ws : Conn) (st : PState)
    (msg : Frame) : StepOut :=
  let st := { st with bound := msg.user_id }
  if falsyO msg.user_id ∨ falsyO msg.space_id then
    ⟨st, [PAction.sendText ws (OutFrame.errorMsg "Invalid join message")],
     PCtl.next⟩
  else
    let uid := msg.user_id.getD ""
    let sid := msg.space_id.getD ""
    if ¬ (sid = spaceId) then
      ⟨st, [PAction.sendText ws (OutFrame.errorMsg "Mismatched space_id"),
            PAction.close ws], PCtl.stop⟩
    else
      let st := { st with userWs := insertA st.userWs uid ws }
      match env.getUser uid with
      | none =>
        ⟨st, [PAction.sendText ws (OutFrame.errorMsg "User not found"),
              PAction.close ws], PCtl.stop⟩
      | some urec =>
        let mapId :=
          match st.map_id with
          | some m => some m
          | none =>
            match env.spaceMapField spaceId with
            | some f =>
              match f with
              | some s => if s = "" then some "office-01" else some s
              | none => some "office-01"
            | none => some "office-01"
        let users2 := insertA st.users uid urec
        let pos2 := insertA st.position_map uid ⟨0, 0⟩
        let joined : QEvent :=
          { event := "user_joined", user_id := uid, space_id := spaceId,
            user_data := some urec, x := 0, y := 0, exclude_ws := some ws }
        ⟨{ st with
            map_id := mapId
            users := users2
            position_map := pos2
            queue := st.queue ++ [joined] },
         [PAction.sendText ws
            (OutFrame.spaceState spaceId mapId users2 pos2 env.mediaInfo),
          PAction.enqueue joined], PCtl.next⟩

/-- The `position_move` branch of `message_parser`: note that the moved user
id is taken from the frame and written into `position_map` without any check
against `users`. -/
def positionMoveStep (ws : Conn) (st : PState) (msg : Frame) : StepOut :=
  if falsyO msg.user_id ∨ falsyO msg.space_id ∨ msg.nx.isNone ∨
      msg.ny.isNone then
    ⟨st, [PAction.sendText ws (OutFrame.errorMsg "Invalid message")],
     PCtl.next⟩
  else
    let uid := msg.user_id.getD ""
    let sid := msg.space_id.getD ""
    let nx := msg.nx.getD 0
    let ny := msg.ny.getD 0
    let upd : QEvent :=
      { event := "position_update", user_id := uid, space_id := sid,
        x := nx, y := ny, direction := msg.direction.getD "down",
        isMoving := msg.isMoving.getD false }
    ⟨{ st with
        position_map := insertA st.position_map uid ⟨nx, ny⟩
        queue := st.queue ++ [upd] },
     [PAction.sendText ws (OutFrame.positionMoveAck uid sid nx ny),
      PAction.enqueue upd], PCtl.next⟩

/-- The tail of the `if/elif` chain of `message_parser`: chat hand-offs,
WebRTC relay, media stream events, `left`, and the silent fall-through for
unhandled event names. None of these branches touches the parser state. -/
def chatMediaStep (env : PEnv) (spaceId : String) (ws : Conn) (st : PState)
    (msg : Frame) (e : String) : StepOut :=
  if e = "send_chat_message" then
    let acts0 := [PAction.chatSpace msg.data st.bound spaceId]
    if env.chatSpaceOutcome.1 then ⟨st, acts0, PCtl.next⟩
    else
      ⟨st, acts0 ++ [PAction.sendText ws
        (OutFrame.errorMsg env.chatSpaceOutcome.2)], PCtl.next⟩
  else if e = "send_private_message" then
    let acts0 := [PAction.chatPrivate msg.data st.bound]
    if env.chatPrivateOutcome.1 then ⟨st, acts0, PCtl.next⟩
    else
      ⟨st, acts0 ++ [PAction.sendText ws
        (OutFrame.errorMsg env.chatPrivateOutcome.2)], PCtl.next⟩
  else if e = "webrtc_signal" then
    if falsyO msg.signal_type ∨ falsyO msg.to_user_id then
      ⟨st, [], PCtl.next⟩
    else
      ⟨st, [PAction.webrtcRelay (msg.signal_type.getD "") st.bound
        (msg.to_user_id.getD "") spaceId], PCtl.next⟩
  else if e = "start_audio_stream" then
    ⟨st, [PAction.mediaStart "audio" st.bound spaceId], PCtl.next⟩
  else if e = "stop_audio_stream" then
    ⟨st, [PAction.mediaStop "audio" st.bound spaceId], PCtl.next⟩
  else if e = "start_video_stream" then
    ⟨st, [PAction.mediaStart "video" st.bound spaceId], PCtl.next⟩
  else if e = "stop_video_stream" then
    ⟨st, [PAction.mediaStop "video" st.bound spaceId], PCtl.next⟩
  else if e = "start_screen_stream" then
    ⟨st, [PAction.mediaStart "screen" st.bound spaceId], PCtl.next⟩
  else if e = "stop_screen_stream" then
    ⟨st, [PAction.mediaStop "screen" st.bound spaceId], PCtl.next⟩
  else if e = "left" then
    ⟨st, [PAction.close ws], PCtl.next⟩
  else
    ⟨st, [], PCtl.next⟩

/-- One iteration of the `while True` receive loop of `message_parser` on a
decoded frame. Unhandled event names fall off the `if/elif` chain and do
nothing. -/
def parserStep (env : PEnv) (spaceId : String) (ws : Conn) (st : PState)
    (msg : Frame) : StepOut :=
  if falsyO msg.event then
    ⟨st, [PAction.sendText ws
      (OutFrame.errorMsg "Invalid message, event field is required")],
     PCtl.next⟩
  else
    let e := lowerStr (msg.event.getD "")
    if e = "join" then joinStep env spaceId ws st msg
    else if e = "position_move" then positionMoveStep ws st msg
    else chatMediaStep env spaceId ws st msg e

/-- The removal half of the disconnect handler, applied to the resolved
user id (or `none` when no matching user was found). -/
def removeUser (spaceId : String) (st : PState) (r : Option String) :
    PState × List PAction :=
  match r with
  | none => (st, [])
  | some u =>
    let left : QEvent := { event := "user_left", user_id := u,
                           space_id := spaceId }
    ({ st with
        userWs := eraseA st.userWs u
        users := eraseA st.users u
        position_map := eraseA st.position_map u
        queue := st.queue ++ [left] },
     [PAction.enqueue left, PAction.mediaCleanup u])

/-- The `except WebSocketDisconnect` cleanup of `message_parser`: find the
user id mapped to this socket (falling back to the parser-local `user_id`
when it is no longer in the mapping), drop it from the global mapping, the
space users and positions, enqueue `user_left`, and clean up media. -/
def disconnectStep (spaceId : String) (ws : Conn) (st : PState) :
    PState × List PAction :=
  let found := (st.userWs.find? (fun p => p.2 = ws)).map (fun p => p.1)
  let toRemove :=
    if ¬ falsyO st.bound ∧ ¬ containsA st.userWs (st.bound.getD "") then
      st.bound
    else found
  removeUser spaceId st toRemove

/-- One inbound item of a connection: a received frame or the transport
disconnect. -/
inductive InItem where
  | frame (f : Frame)
  | disconnect
deriving Repr, DecidableEq

/-- Apply one inbound item of connection `ws` to the state. -/
def stepItem (env : PEnv) (spaceId : String) (ws : Conn) (st : PState)
    (it : InItem) : PState :=
  match it with
  | InItem.frame f => (parserStep env spaceId ws st f).st
  | InItem.disconnect => (disconnectStep spaceId ws st).1

/-- Run a sequence of inbound items of connection `ws`. -/
def runItems (env : PEnv) (spaceId : String) (ws : Conn) (st : PState) :
    List InItem → PState
  | [] => st
  | it :: rest => runItems env spaceId ws (stepItem env spaceId ws st it) rest

/-! ## Broadcast loop (space_broadcaster.start) -/

/-- One drain iteration of `start`, applied to the event just taken from
`space_updates`: when `_running` holds and the subscriber list is non-empty,
pop `exclude_ws`, serialize once, and send to every non-excluded subscriber;
otherwise the event is dropped. The serialized payload is represented by the
event with `exclude_ws` removed. -/
def broadcastStep (running : Bool) (subs : List Conn) (e : QEvent) :
    List (Conn × QEvent) :=
  if running ∧ subs ≠ [] then
    let payload := { e with exclude_ws := none }
    (subs.filter (fun c => ¬ (some c = e.exclude_ws))).map
      (fun c => (c, payload))
  else []

/-- Multi-iteration drain: the `n`-th dequeue sees the `n`-th
(running-flag, subscriber-list) configuration, capturing that both may change
between iterations. The result lists, per iteration, the sends performed.
Dequeued events are consumed positionally and never requeued. -/
def broadcastDrain (cfgs : List (Bool × List Conn)) (q : List QEvent) :
    List (List (Conn × QEvent)) :=
  match cfgs, q with
  | c :: cs, e :: es => broadcastStep c.1 c.2 e :: broadcastDrain cs es
  | _, _ => []

/-- The queue contents remaining after the drain iterations. -/
def broadcastRemaining (cfgs : List (Bool × List Conn)) (q : List QEvent) :
    List QEvent :=
  q.drop cfgs.length

/-! ## Media manager (media.py) -/

/-- The `MediaStream` dataclass (metadata omitted as opaque). -/
structure MStream where
  stream_id : String
  user_id : String
  space_id : String
  media_type : String
  state : String
  timestamp : Nat
deriving Repr, DecidableEq

/-- The per-kind stream tables and per-user states of `MediaManager`. -/
structure MediaSt where
  active_audio_streams : List (String × List (String × MStream)) := []
  active_video_streams : List (String × List (String × MStream)) := []
  active_screen_shares : List (String × List (String × MStream)) := []
  user_audio_state : List (String × String) := []
  user_video_state : List (String × String) := []
  user_screen_state : List (String × String) := []
deriving Repr, DecidableEq

/-- Lookup of a stream in a space table. -/
def streamOf (tbl : List (String × List (String × MStream)))
    (space u : String) : Option MStream :=
  match lookupA tbl space with
  | none => none
  | some inner => lookupA inner u

/-- Insert a stream into a space table, creating the space entry if absent. -/
def putStream (tbl : List (String × List (String × MStream)))
    (space u : String) (s : MStream) :
    List (String × List (String × MStream)) :=
  match lookupA tbl space with
  | none => insertA tbl space [(u, s)]
  | some inner => insertA tbl space (insertA inner u s)

/-- Result of a media start/stop call: new state, events put on the space
queue, and the `(success, stream_id or error)` pair. -/
structure MediaOut where
  mst : MediaSt
  queued : List QEvent
  ok : Bool
  result : String
deriving Repr, DecidableEq

/-- `MediaManager.start_audio_stream`: reject when the user is not in the
broadcaster users dict or already streams audio in the space; otherwise
create the stream, record the user state and put AUDIO_STREAM_STARTED on the
space queue. `now` is the event-loop time and `userName` resolution follows
`users.get(user_id)`. -/
def start_audio_stream (users : List (String × UserRec)) (mst : MediaSt)
    (user_id space_id : String) (now : Nat) : MediaOut :=
  if ¬ containsA users user_id then
    ⟨mst, [], false, "User not in space"⟩
  else if (streamOf mst.active_audio_streams space_id user_id).isSome then
    ⟨mst, [], false, "Already streaming audio"⟩
  else
    let sid := "audio_" ++ user_id ++ "_" ++ space_id ++ "_" ++ toString now
    let s : MStream := ⟨sid, user_id, space_id, "audio", "enabled", now⟩
    let uname := match lookupA users user_id with
      | some u => u.user_name
      | none => "Unknown"
    ⟨{ mst with
        active_audio_streams := putStream mst.active_audio_streams space_id
          user_id s
        user_audio_state := insertA mst.user_audio_state user_id "enabled" },
     [{ event := "AUDIO_STREAM_STARTED", user_id := user_id,
        user_name := uname, space_id := space_id, stream_id := sid,
        timestamp := now }], true, sid⟩

/-- Modelled from the spec: `MediaManager.start_screen_stream` is called by
`message_parser` (space_broadcaster.py lines 278-283) but is not defined in
media.py; per the spec it is symmetric with the audio/video starters using
the `screen` kind, so this definition mirrors `start_audio_stream` on the
screen-share table with a SCREEN_STREAM_STARTED queue event. -/
def start_screen_stream (users : List (String × UserRec)) (mst : MediaSt)
    (user_id space_id : String) (now : Nat) : MediaOut :=
  if ¬ containsA users user_id then
    ⟨mst, [], false, "User not in space"⟩
  else if (streamOf mst.active_screen_shares space_id user_id).isSome then
    ⟨mst, [], false, "Already streaming screen"⟩
  else
    let sid := "screen_" ++ user_id ++ "_" ++ space_id ++ "_" ++ toString now
    let s : MStream := ⟨sid, user_id, space_id, "screen", "enabled", now⟩
    let uname := match lookupA users user_id with
      | some u => u.user_name
      | none => "Unknown"
    ⟨{ mst with
        active_screen_shares := putStream mst.active_screen_shares space_id
          user_id s
        user_screen_state := insertA mst.user_screen_state user_id "enabled" },
     [{ event := "SCREEN_STREAM_STARTED", user_id := user_id,
        user_name := uname, space_id := space_id, stream_id := sid,
        timestamp := now }], true, sid⟩

/-! ## Invite manager (invite.py) -/

/-- A row of the `notifications` table, restricted to the columns
`accept_invite` reads, with the `data->>spaceId` payload field inlined. -/
structure Notification where
  id : String
  user_id : String
  ntype : String
  status : String
  expires_at : Option Nat
  is_active : Bool
  dataSpaceId : Option String
deriving Repr, DecidableEq

/-- A row of the `spaces` table, restricted to what `accept_invite` reads. -/
structure SpaceRow where
  id : String
  name : String
  max_users : Nat
  is_active : Bool
deriving Repr, DecidableEq

/-- The relational state `accept_invite` runs against. -/
structure DBState where
  notifications : List Notification
  spaces : List SpaceRow
  user_spaces : List (String × String)
deriving Repr, DecidableEq

/-- Outcome of `accept_invite`. -/
structure AcceptOut where
  db : DBState
  ok : Bool
  message : String
deriving Repr, DecidableEq

/-- The predicate of the invite-fetch query of `accept_invite`. -/
def inviteMatch (notification_id user_id : String) (n : Notification) :
    Bool :=
  n.id = notification_id && n.user_id = user_id && n.ntype = "invites" &&
    n.is_active

/-- `UPDATE notifications SET status = $s WHERE id = $nid`. -/
def setNtfStatus (db : DBState) (nid s : String) : DBState :=
  { db with
      notifications := db.notifications.map
        (fun n => if n.id = nid then { n with status := s } else n) }

/-- Row count of `user_spaces` for a space (the `current_users` subquery). -/
def memberCount (db : DBState) (space_id : String) : Nat :=
  (db.user_spaces.filter (fun p => p.2 = space_id)).length

/-- `InviteManager.accept_invite` (invite.py lines 183-293) as one
transactional state transformation at time `now`. -/
def accept_invite (db : DBState) (user_id notification_id : String)
    (now : Nat) : AcceptOut :=
  match db.notifications.find? (inviteMatch notification_id user_id) with
  | none => ⟨db, false, "Invite not found"⟩
  | some inv =>
    if ¬ (inv.status = "unread") then
      ⟨db, false, "Invite has already been processed"⟩
    else if (match inv.expires_at with
             | some e => decide (e < now)
             | none => false) = true then
      ⟨setNtfStatus db notification_id "dismissed", false,
       "Invite has expired"⟩
    else
      match inv.dataSpaceId with
      | none => ⟨db, false, "Invalid invite data"⟩
      | some space_id =>
        match db.spaces.find? (fun s => s.id = space_id && s.is_active) with
        | none => ⟨db, false, "Space no longer exists or is inactive"⟩
        | some sp =>
          if sp.max_users ≤ memberCount db space_id then
            ⟨db, false, "Space is now full"⟩
          else if (db.user_spaces.filter
              (fun p => p.1 = user_id && p.2 = space_id)) ≠ [] then
            ⟨setNtfStatus db notification_id "read", true,
             "You are already a member of this space"⟩
          else
            let db2 := { db with
              user_spaces := db.user_spaces ++ [(user_id, space_id)] }
            ⟨setNtfStatus db2 notification_id "read", true,
             "Invite accepted successfully"⟩

/-! ## Invariant and legality of inbound traces -/

/-- The legality guard of a single inbound item relative to the current
state: a `position_move` frame must carry the id of a user currently in the
space users dict (the spec transition table only moves the joined user). -/
def guardB (st : PState) (it : InItem) : Bool :=
  match it with
  | InItem.frame f =>
    if lowerStr (f.event.getD "") = "position_move" then
      containsA st.users (f.user_id.getD "")
    else true
  | InItem.disconnect => true

/-- Legality of a whole inbound trace relative to the evolving state. -/
def legalB (env : PEnv) (spaceId : String) (ws : Conn) :
    PState → List InItem → Bool
  | _, [] => true
  | st, it :: rest =>
    guardB st it && legalB env spaceId ws (stepItem env spaceId ws st it) rest

/-- Keys of `position_map` are keys of `users`. -/
def InvUP (st : PState) : Prop :=
  ∀ k, containsA st.position_map k = true → containsA st.users k = true

/-! ## Concrete fixtures for witnesses and counterexamples -/

/-- A two-user store with both users connected (receiver on connection 2,
sender on connection 1), all external calls succeeding. -/
def envHappy : ChatEnv :=
  { getUser := fun u =>
      if u = "u1" then some ⟨"u1", "Alice"⟩
      else if u = "u2" then some ⟨"u2", "Bob"⟩ else none
    getSpace := fun s => s = "s1"
    userWs := [("u2", 2), ("u1", 1)]
    cacheSaveOk := fun _ => true
    queuePutRaises := false
    sendRaises := fun _ => false
    dbSaveOk := fun _ => true }

/-- `envHappy` with the space-queue put raising (scenario S3 of the spec). -/
def envPutFails : ChatEnv := { envHappy with queuePutRaises := true }

/-- `envHappy` with every database save failing. -/
def envDbDown : ChatEnv := { envHappy with dbSaveOk := fun _ => false }

/-- A valid private message from u1 to u2. -/
def dPrivate : MessageData :=
  { sender_id := some "u1", content := some "yo",
    message_type := some "private", receiver_id := some "u2" }

/-- A valid space message from u1 in space s1. -/
def dSpace : MessageData :=
  { sender_id := some "u1", content := some "hi",
    message_type := some "space", space_id := some "s1" }

/-- A broadcast message as it enters the detached persistence task. -/
def mBroadcast : Message :=
  { message_id := "m1", sender_id := "u1", message_type := "private",
    content := "yo", timestamp := 5, receiver_id := some "u2",
    status := "broadcast" }

/-- Parser environment where only u1 and u2 exist. -/
def penvTwo : PEnv :=
  { getUser := fun u =>
      if u = "u1" then some ⟨"u1", "Alice"⟩
      else if u = "u2" then some ⟨"u2", "Bob"⟩ else none
    spaceMapField := fun _ => some (some "office-02")
    mediaInfo := []
    chatSpaceOutcome := (true, "m")
    chatPrivateOutcome := (true, "m") }

/-- A broadcaster state in which u1 is already bound to connection 1. -/
def stOldConn : PState := { userWs := [("u1", 1)] }

/-- A `join` frame for u1 into space s1. -/
def fJoin : Frame :=
  { event := some "join", user_id := some "u1", space_id := some "s1" }

/-- A `position_move` frame whose user id v never joined. -/
def fMoveGhost : Frame :=
  { event := some "position_move", user_id := some "v",
    space_id := some "s1", nx := some 1, ny := some 2 }

/-- Invite fixture: one unread active invite for u3 into space s1, space has
room and u3 is not yet a member. -/
def dbInvite : DBState :=
  { notifications :=
      [{ id := "n1", user_id := "u3", ntype := "invites", status := "unread",
         expires_at := some 100, is_active := true,
         dataSpaceId := some "s1" }]
    spaces := [{ id := "s1", name := "HQ", max_users := 10,
                 is_active := true }]
    user_spaces := [("u9", "s1")] }

/-! ## Association-list lemmas -/

theorem lookupA_insertA_self {β : Type} (m : List (String × β)) (k : String)
    (v : β) : lookupA (insertA m k v) k = some v := by
  induction m with
  | nil => simp [insertA, lookupA]
  | cons p rest ih =>
    obtain ⟨pk, pv⟩ := p
    by_cases h : pk = k <;> simp [insertA, lookupA, h, ih]

theorem lookupA_insertA_ne {β : Type} (m : List (String × β)) (k k2 : String)
    (v : β) (h : k2 ≠ k) : lookupA (insertA m k v) k2 = lookupA m k2 := by
  have h' : ¬ k = k2 := fun he => h he.symm
  induction m with
  | nil => simp [insertA, lookupA, h']
  | cons p rest ih =>
    obtain ⟨pk, pv⟩ := p
    by_cases hp : pk = k
    · subst hp
      simp [insertA, lookupA, h']
    · by_cases hp2 : pk = k2 <;> simp [insertA, lookupA, hp, hp2, ih, h]

theorem containsA_insertA {β : Type} (m : List (String × β)) (k k2 : String)
    (v : β) :
    containsA (insertA m k v) k2 = (k2 = k ∨ containsA m k2 = true) := by
  by_cases h : k2 = k
  · subst h; simp [containsA, lookupA_insertA_self]
  · simp [containsA, lookupA_insertA_ne m k k2 v h, h]

theorem lookupA_eraseA {β : Type} (m : List (String × β)) (k k2 : String) :
    lookupA (eraseA m k) k2 = if k2 = k then none else lookupA m k2 := by
  induction m with
  | nil => simp [eraseA, lookupA]
  | cons p rest ih =>
    obtain ⟨pk, pv⟩ := p
    by_cases hp : pk = k
    · by_cases h2 : k2 = k
      · simpa [eraseA, lookupA, hp, h2] using ih
      · have hpk2 : ¬ pk = k2 := fun he => h2 (by rw [← he, hp])
        have hk2s : ¬ k = k2 := fun he => h2 he.symm
        simpa [eraseA, lookupA, hp, h2, hpk2, hk2s] using ih
    · by_cases hp2 : pk = k2
      · have hk2 : ¬ k2 = k := fun he => hp (by rw [hp2, he])
        simp [eraseA, lookupA, hp, hp2, hk2]
      · simpa [eraseA, lookupA, hp, hp2] using ih

theorem containsA_eraseA {β : Type} (m : List (String × β)) (k k2 : String) :
    containsA (eraseA m k) k2 = (¬ (k2 = k) ∧ containsA m k2 = true) := by
  by_cases h : k2 = k <;> simp [containsA, lookupA_eraseA, h]

/-! ## Trace-shape lemmas for the chat pipeline -/

theorem sendSwallow_no_persist (env : ChatEnv) (c : Conn)
    (j : Except String (List (String × JVal))) (m2 : Message) :
    ChatAct.schedulePersist m2 ∉ sendSwallow env c j := by
  cases j with
  | error e => simp [sendSwallow]
  | ok frame =>
    by_cases h : env.sendRaises c <;> simp [sendSwallow, h]

theorem cacheGo_no_persist (env : ChatEnv) (key : String) (m2 : Message) :
    ∀ rem k, ChatAct.schedulePersist m2 ∉ (cacheGo env key rem k).1 := by
  intro rem
  induction rem with
  | zero => intro k; simp [cacheGo]
  | succ n ih =>
    intro k
    by_cases h : env.cacheSaveOk k <;> simp [cacheGo, h, ih (k + 1)]

theorem broadcast_no_persist (env : ChatEnv) (m : Message) (m2 : Message) :
    ChatAct.schedulePersist m2 ∉ (broadcast_message env m).1 := by
  unfold broadcast_message broadcastSpace broadcastPrivate
  by_cases hk : m.message_type = "space"
  · by_cases hq : env.queuePutRaises <;> simp [hk, hq]
  · simp only [hk, if_false]
    intro hmem
    rcases List.mem_append.mp hmem with h | h
    · rcases hcase : lookupA env.userWs (m.receiver_id.getD "") with _ | c <;>
        rw [hcase] at h
      · simp at h
      · exact sendSwallow_no_persist env c _ m2 h
    · rcases hcase : lookupA env.userWs m.sender_id with _ | c <;>
        rw [hcase] at h
      · simp at h
      · exact sendSwallow_no_persist env c _ m2 h

/-! ## C4 — persistence retry exhaustion -/

/-- C4 counterexample: with every database save failing, the detached
persistence task for a broadcast message leaves the status at `broadcast`
(not `failed`) even though the message lands on the dead-letter queue, so
the claim that the status afterwards equals `failed` is false on this
concrete run. -/
theorem c4_counterexample :
    (persist_with_retry envDbDown mBroadcast).final.status = "broadcast" ∧
    ¬ ((persist_with_retry envDbDown mBroadcast).final.status = "failed") ∧
    (persist_with_retry envDbDown mBroadcast).dlq = [mBroadcast] := by
  decide

/-- C4 (amended): when all 5 persistence attempts fail, the message is
appended to the dead-letter queue and the failed counter is incremented,
but its status field is left unchanged (it is never set to `failed`). -/
theorem c4_amended_retry_exhaustion (env : ChatEnv) (m : Message)
    (h : ∀ k, k < 5 → env.dbSaveOk k = false) :
    (persist_with_retry env m).final = m ∧
    (persist_with_retry env m).dlq = [m] ∧
    (persist_with_retry env m).failedInc = 1 := by
  have h0 := h 0 (by norm_num)
  have h1 := h 1 (by norm_num)
  have h2 := h 2 (by norm_num)
  have h3 := h 3 (by norm_num)
  have h4 := h 4 (by norm_num)
  simp [persist_with_retry, persistGo, h0, h1, h2, h3, h4]

/-- Witness for `c4_amended_retry_exhaustion` at the concrete fixture. -/
theorem c4_amended_retry_exhaustion_witness :
    (∀ k, k < 5 → envDbDown.dbSaveOk k = false) ∧
    ((persist_with_retry envDbDown mBroadcast).final = mBroadcast ∧
     (persist_with_retry envDbDown mBroadcast).dlq = [mBroadcast] ∧
     (persist_with_retry envDbDown mBroadcast).failedInc = 1) :=
  ⟨fun _ _ => rfl,
   c4_amended_retry_exhaustion envDbDown mBroadcast (fun _ _ => rfl)⟩

/-! ## C1 — private-message delivery -/

/-- C1: evaluation of the pipeline at a valid private message from u1 to u2
with both connections live. The receiver lookup succeeds (u2 is bound to
connection 2), yet the trace contains no successful send at all: both
`send_text` calls evaluate `to_json(cls=CustomEncoder)`, which raises
`TypeError` inside the swallowed `try/except` (event_types.py defines
`to_json(self)` without a `cls` parameter), so neither the receiver event
nor the sender confirmation is ever delivered while the pipeline still
reports success. -/
theorem c1_private_message_never_delivered :
    (process_message envHappy "m1" 5 dPrivate).ok = true ∧
    lookupA envHappy.userWs "u2" = some 2 ∧
    (process_message envHappy "m1" 5 dPrivate).trace =
      [ChatAct.cacheSave "msg:m1" true, ChatAct.sendFailed 2,
       ChatAct.sendFailed 1, ChatAct.schedulePersist mBroadcast] ∧
    (∀ c f, ChatAct.send c f ∉ (process_message envHappy "m1" 5
      dPrivate).trace) := by
  have ht : (process_message envHappy "m1" 5 dPrivate).trace =
      [ChatAct.cacheSave "msg:m1" true, ChatAct.sendFailed 2,
       ChatAct.sendFailed 1, ChatAct.schedulePersist mBroadcast] := by
    decide
  refine ⟨by decide, by decide, ht, ?_⟩
  intro c f
  rw [ht]
  simp

/-! ## C3 — rollback on broadcast failure -/

theorem cache_with_retry_id (env : ChatEnv) (m : Message) :
    (cache_with_retry env m).2.2.message_id = m.message_id := by
  unfold cache_with_retry
  by_cases h : (cacheGo env ("msg:" ++ m.message_id) 3 0).2 <;> simp [h]

/-- C3: whenever the broadcast stage of `process_message` runs and fails,
the pipeline deletes the cache entry `msg:` + message id, marks the message
`rolled_back`, schedules no persistence, and returns failure. -/
theorem c3_broadcast_failure_rollback (env : ChatEnv) (freshId : String)
    (now : Nat) (d : MessageData)
    (hatt : (process_message env freshId now d).broadcastAttempted = true)
    (hfail : (process_message env freshId now d).broadcastOk = false) :
    (process_message env freshId now d).ok = false ∧
    (process_message env freshId now d).result = "Broadcast failed" ∧
    (∃ m, (process_message env freshId now d).msg = some m ∧
      m.status = "rolled_back" ∧ m.message_id = freshId ∧
      ChatAct.cacheDelete ("msg:" ++ m.message_id) ∈
        (process_message env freshId now d).trace) ∧
    (process_message env freshId now d).persistScheduled = false ∧
    (∀ m2, ChatAct.schedulePersist m2 ∉
      (process_message env freshId now d).trace) := by
  rcases hv : validate_message d with ⟨vo, code, emsg⟩
  rcases vo with _ | v
  · rw [process_message, hv] at hatt
    simp at hatt
  by_cases hauth : authenticate_message env v = true
  · rw [process_message, hv] at hatt hfail ⊢
    simp only [hauth, if_true, if_pos] at hatt hfail ⊢
    rcases hbr : (broadcast_message env (cache_with_retry env
        ⟨freshId, v.sender_id, v.message_type, v.content, now, v.space_id,
         v.receiver_id, "validated", 0⟩).2.2).2
    · simp only [hbr, Bool.false_eq_true, if_false] at hfail ⊢
      refine ⟨trivial, trivial, ?_, trivial, ?_⟩
      · refine ⟨_, rfl, ?_, ?_, ?_⟩
        · simp [rollback_message]
        · simp [rollback_message, cache_with_retry_id]
        · simp [rollback_message, cache_with_retry_id]
      · intro m2
        simp only [rollback_message, List.mem_append]
        rintro ((h | h) | h)
        · exact cacheGo_no_persist env _ m2 3 0
            (by simpa [cache_with_retry] using h)
        · exact broadcast_no_persist env _ m2 h
        · simp at h
    · rw [hbr] at hfail
      simp at hfail
  · rw [process_message, hv] at hatt
    simp [hauth] at hatt

/-- Witness for `c3_broadcast_failure_rollback`: the queue put raises on a
valid space message (scenario S3 of the spec). -/
theorem c3_broadcast_failure_rollback_witness :
    ((process_message envPutFails "m1" 5 dSpace).broadcastAttempted = true ∧
     (process_message envPutFails "m1" 5 dSpace).broadcastOk = false) ∧
    ((process_message envPutFails "m1" 5 dSpace).ok = false ∧
     (process_message envPutFails "m1" 5 dSpace).result =
       "Broadcast failed" ∧
     (∃ m, (process_message envPutFails "m1" 5 dSpace).msg = some m ∧
       m.status = "rolled_back" ∧ m.message_id = "m1" ∧
       ChatAct.cacheDelete ("msg:" ++ m.message_id) ∈
         (process_message envPutFails "m1" 5 dSpace).trace) ∧
     (process_message envPutFails "m1" 5 dSpace).persistScheduled = false ∧
     (∀ m2, ChatAct.schedulePersist m2 ∉
       (process_message envPutFails "m1" 5 dSpace).trace)) :=
  ⟨⟨by decide, by decide⟩,
   c3_broadcast_failure_rollback envPutFails "m1" 5 dSpace (by decide)
     (by decide)⟩


/-! ## C8 — start_screen_stream -/

theorem streamOf_putStream (tbl : List (String × List (String × MStream)))
    (space u : String) (s : MStream) :
    streamOf (putStream tbl space u s) space u = some s := by
  unfold streamOf putStream
  rcases h : lookupA tbl space with _ | inner <;>
    simp [h, lookupA_insertA_self, lookupA]

/-- C8: in the Joined state, `start_screen_stream` for a user present in the
space users dict with no existing screen stream succeeds, creates a
screen-kind stream for that user and space, and queues exactly one
SCREEN_STREAM_STARTED event for the space. -/
theorem c8_start_screen_stream (users : List (String × UserRec))
    (mst : MediaSt) (u space : String) (now : Nat)
    (hu : containsA users u = true)
    (hs : streamOf mst.active_screen_shares space u = none) :
    (start_screen_stream users mst u space now).ok = true ∧
    (∃ s, streamOf (start_screen_stream users mst u space
        now).mst.active_screen_shares space u = some s ∧
      s.media_type = "screen" ∧ s.user_id = u ∧ s.space_id = space ∧
      s.state = "enabled") ∧
    (∃ qe, (start_screen_stream users mst u space now).queued = [qe] ∧
      qe.event = "SCREEN_STREAM_STARTED" ∧ qe.user_id = u ∧
      qe.space_id = space) := by
  have hs2 : (streamOf mst.active_screen_shares space u).isSome = false := by
    simp [hs]
  rcases hlook : lookupA users u with _ | u0
  · exact absurd hu (by simp [containsA, hlook])
  refine ⟨?_, ?_, ?_⟩
  · simp [start_screen_stream, hu, hs2]
  · exact ⟨⟨"screen_" ++ u ++ "_" ++ space ++ "_" ++ toString now, u, space,
      "screen", "enabled", now⟩,
      by simp [start_screen_stream, hu, hs2, streamOf_putStream], rfl, rfl,
      rfl, rfl⟩
  · exact ⟨{ event := "SCREEN_STREAM_STARTED"
             user_id := u
             user_name := u0.user_name
             space_id := space
             stream_id := "screen_" ++ u ++ "_" ++ space ++ "_" ++
               toString now
             timestamp := now },
      by simp [start_screen_stream, hu, hs2, hlook], rfl, rfl, rfl⟩

/-- Witness for `c8_start_screen_stream`: u1 in the space, empty media
state. -/
theorem c8_start_screen_stream_witness :
    (containsA [("u1", (⟨"u1", "Alice"⟩ : UserRec))] "u1" = true ∧
     streamOf (MediaSt.mk [] [] [] [] [] []).active_screen_shares "s1" "u1" =
       none) ∧
    ((start_screen_stream [("u1", ⟨"u1", "Alice"⟩)]
        (MediaSt.mk [] [] [] [] [] []) "u1" "s1" 7).ok = true ∧
     (∃ s, streamOf (start_screen_stream [("u1", ⟨"u1", "Alice"⟩)]
          (MediaSt.mk [] [] [] [] [] []) "u1" "s1"
          7).mst.active_screen_shares "s1" "u1" = some s ∧
        s.media_type = "screen" ∧ s.user_id = "u1" ∧ s.space_id = "s1" ∧
        s.state = "enabled") ∧
     (∃ qe, (start_screen_stream [("u1", ⟨"u1", "Alice"⟩)]
          (MediaSt.mk [] [] [] [] [] []) "u1" "s1" 7).queued = [qe] ∧
        qe.event = "SCREEN_STREAM_STARTED" ∧ qe.user_id = "u1" ∧
        qe.space_id = "s1")) :=
  ⟨⟨by decide, by decide⟩,
   c8_start_screen_stream [("u1", ⟨"u1", "Alice"⟩)]
     (MediaSt.mk [] [] [] [] [] []) "u1" "s1" 7 (by decide) (by decide)⟩

/-! ## C7 — accept_invite idempotence -/

theorem inviteMatch_setStatus (nid uid s : String) (n : Notification) :
    inviteMatch nid uid
      (if n.id = nid then { n with status := s } else n) =
      inviteMatch nid uid n := by
  by_cases h : n.id = nid <;> simp [h, inviteMatch]

theorem find?_map_setStatus (nid uid s : String) (inv : Notification) :
    ∀ l : List Notification, l.find? (inviteMatch nid uid) = some inv →
    (l.map (fun n => if n.id = nid then { n with status := s } else n)).find?
      (inviteMatch nid uid) = some { inv with status := s } := by
  intro l
  induction l with
  | nil => simp
  | cons n t ih =>
    intro h
    rcases hp : inviteMatch nid uid n with _ | _
    · rw [List.find?_cons_of_neg _ (by simp [hp])] at h
      simp only [List.map_cons]
      rw [List.find?_cons_of_neg _ (by simp [inviteMatch_setStatus, hp])]
      exact ih h
    · rw [List.find?_cons_of_pos _ hp] at h
      have hn : n = inv := by injection h
      subst hn
      have hid : n.id = nid := by
        simp [inviteMatch] at hp
        exact hp.1.1.1
      simp only [List.map_cons]
      rw [List.find?_cons_of_pos _ (by simp [inviteMatch_setStatus, hp])]
      simp [hid]

/-- C7: `accept_invite` is idempotent. For an unread, active, non-expired
invite of the user into a space that is active and has room, with the user
not yet a member: the first call succeeds, flips the notification to read
and leaves exactly one membership row for (user, space); the second call on
the same notification reports it as already processed and changes nothing,
so exactly one membership row remains. -/
theorem c7_accept_invite_idempotent (db : DBState)
    (uid nid sid : String) (now : Nat) (inv : Notification) (sp : SpaceRow)
    (hfind : db.notifications.find? (inviteMatch nid uid) = some inv)
    (hunread : inv.status = "unread")
    (hexp : (match inv.expires_at with
             | some e => decide (e < now)
             | none => false) = false)
    (hdata : inv.dataSpaceId = some sid)
    (hsp : db.spaces.find? (fun s => s.id = sid && s.is_active) = some sp)
    (hroom : memberCount db sid < sp.max_users)
    (hmem : db.user_spaces.filter (fun p => p.1 = uid && p.2 = sid) = []) :
    (accept_invite db uid nid now).ok = true ∧
    ((accept_invite db uid nid now).db.notifications.find?
      (inviteMatch nid uid) = some { inv with status := "read" }) ∧
    (((accept_invite db uid nid now).db.user_spaces.filter
      (fun p => p.1 = uid && p.2 = sid)).length = 1) ∧
    (accept_invite (accept_invite db uid nid now).db uid nid now).ok =
      false ∧
    (accept_invite (accept_invite db uid nid now).db uid nid now).message =
      "Invite has already been processed" ∧
    (accept_invite (accept_invite db uid nid now).db uid nid now).db =
      (accept_invite db uid nid now).db ∧
    (((accept_invite (accept_invite db uid nid now).db uid nid
        now).db.user_spaces.filter
      (fun p => p.1 = uid && p.2 = sid)).length = 1) := by
  have hnotle : ¬ sp.max_users ≤ memberCount db sid := Nat.not_le.mpr hroom
  have h1 : accept_invite db uid nid now =
      ⟨setNtfStatus { db with user_spaces := db.user_spaces ++ [(uid, sid)] }
        nid "read", true, "Invite accepted successfully"⟩ := by
    rw [accept_invite, hfind]
    simp only [hunread, hexp, hdata, hsp, hnotle, hmem]
    simp
  have hfind2 : (accept_invite db uid nid now).db.notifications.find?
      (inviteMatch nid uid) = some { inv with status := "read" } := by
    rw [h1]
    exact find?_map_setStatus nid uid "read" inv db.notifications hfind
  have hcount : ((accept_invite db uid nid now).db.user_spaces.filter
      (fun p => p.1 = uid && p.2 = sid)).length = 1 := by
    rw [h1]
    simp [setNtfStatus, List.filter_append, hmem]
  have h2 : accept_invite (accept_invite db uid nid now).db uid nid now =
      ⟨(accept_invite db uid nid now).db, false,
       "Invite has already been processed"⟩ := by
    rw [accept_invite, hfind2]
    simp
  refine ⟨by rw [h1], hfind2, hcount, by rw [h2], by rw [h2], by rw [h2],
    ?_⟩
  rw [h2]
  exact hcount

/-- Witness for `c7_accept_invite_idempotent` on the concrete invite
fixture. -/
theorem c7_accept_invite_idempotent_witness :
    (dbInvite.notifications.find? (inviteMatch "n1" "u3") =
      some { id := "n1", user_id := "u3", ntype := "invites",
             status := "unread", expires_at := some 100, is_active := true,
             dataSpaceId := some "s1" } ∧
     memberCount dbInvite "s1" < 10 ∧
     dbInvite.user_spaces.filter (fun p => p.1 = "u3" && p.2 = "s1") =
       []) ∧
    ((accept_invite dbInvite "u3" "n1" 50).ok = true ∧
     (((accept_invite dbInvite "u3" "n1" 50).db.user_spaces.filter
       (fun p => p.1 = "u3" && p.2 = "s1")).length = 1) ∧
     (accept_invite (accept_invite dbInvite "u3" "n1" 50).db "u3" "n1"
       50).ok = false ∧
     (accept_invite (accept_invite dbInvite "u3" "n1" 50).db "u3" "n1"
       50).message = "Invite has already been processed") := by
  have h := c7_accept_invite_idempotent dbInvite "u3" "n1" "s1" 50
    { id := "n1", user_id := "u3", ntype := "invites", status := "unread",
      expires_at := some 100, is_active := true, dataSpaceId := some "s1" }
    { id := "s1", name := "HQ", max_users := 10, is_active := true }
    (by decide) (by decide) (by decide) (by decide) (by decide) (by decide)
    (by decide)
  exact ⟨⟨by decide, by decide, by decide⟩,
    h.1, h.2.2.1, h.2.2.2.1, h.2.2.2.2.1⟩

/-! ## C5 — user binding on join -/

/-- C5 counterexample: u1 is bound to connection 1; the same user joins on
connection 2. The mapping now holds connection 2 (last writer wins), but no
close is ever issued for the superseded connection 1, so the claim that the
superseded connection has been closed is false on this concrete run. -/
theorem c5_counterexample :
    lookupA stOldConn.userWs "u1" = some 1 ∧
    lookupA (parserStep penvTwo "s1" 2 stOldConn fJoin).st.userWs "u1" =
      some 2 ∧
    PAction.close 1 ∉ (parserStep penvTwo "s1" 2 stOldConn fJoin).acts := by
  decide

/-- C5 (amended): on a join that binds `uid` on connection `ws`, a previous
mapping to a different connection `c0` is superseded — the mapping holds the
new connection afterwards — but the parser never closes the superseded
connection. -/
theorem c5_amended_bind_no_close (env : PEnv) (spaceId : String) (ws : Conn)
    (st : PState) (msg : Frame) (uid : String) (c0 : Conn)
    (hev : msg.event = some "join")
    (hu : msg.user_id = some uid) (huf : ¬ uid = "")
    (hs : msg.space_id = some spaceId) (hsf : ¬ spaceId = "")
    (hold : lookupA st.userWs uid = some c0) (hne : ¬ c0 = ws) :
    lookupA (parserStep env spaceId ws st msg).st.userWs uid = some ws ∧
    (∀ a ∈ (parserStep env spaceId ws st msg).acts,
      ¬ (a = PAction.close c0)) := by
  have hstep : parserStep env spaceId ws st msg =
      joinStep env spaceId ws st msg := by
    simp [parserStep, hev, falsyO,
      show lowerStr "join" = "join" from by decide]
  rw [hstep]
  unfold joinStep
  simp only [hu, hs, falsyO, huf, hsf, Option.getD_some]
  rcases hg : env.getUser uid with _ | urec
  · simp only [hg]
    constructor
    · simp [lookupA_insertA_self]
    · intro a ha
      simp at ha
      rcases ha with ha | ha <;> subst ha <;> simp
      exact fun hc => hne hc.symm
  · simp only [hg]
    constructor
    · simp [lookupA_insertA_self]
    · intro a ha
      simp at ha
      rcases ha with ha | ha <;> subst ha <;> simp

/-- Witness for `c5_amended_bind_no_close` at the concrete fixture. -/
theorem c5_amended_bind_no_close_witness :
    (fJoin.event = some "join" ∧ fJoin.user_id = some "u1" ∧
     fJoin.space_id = some "s1" ∧
     lookupA stOldConn.userWs "u1" = some 1) ∧
    (lookupA (parserStep penvTwo "s1" 2 stOldConn fJoin).st.userWs "u1" =
      some 2 ∧
     (∀ a ∈ (parserStep penvTwo "s1" 2 stOldConn fJoin).acts,
       ¬ (a = PAction.close 1))) :=
  ⟨⟨rfl, rfl, rfl, by decide⟩,
   c5_amended_bind_no_close penvTwo "s1" 2 stOldConn fJoin "u1" 1 rfl rfl
     (by decide) rfl (by decide) (by decide) (by decide)⟩

/-! ## C6 — space_state precedes user_joined -/

/-- C6: on a successful join the parser emits exactly two actions — first
the private `space_state` frame on the joining connection, then the enqueue
of `user_joined` carrying `exclude_ws` equal to the joining connection — and
the broadcast loop never delivers an event to its excluded connection, so
other subscribers can observe `user_joined` only after the joiner received
`space_state`, and the joiner itself never receives it. -/
theorem c6_space_state_before_user_joined (env : PEnv) (spaceId : String)
    (ws : Conn) (st : PState) (msg : Frame) (uid : String) (urec : UserRec)
    (hev : msg.event = some "join")
    (hu : msg.user_id = some uid) (huf : ¬ uid = "")
    (hs : msg.space_id = some spaceId) (hsf : ¬ spaceId = "")
    (hrec : env.getUser uid = some urec) :
    (∃ mapId qe,
      (parserStep env spaceId ws st msg).acts =
        [PAction.sendText ws (OutFrame.spaceState spaceId mapId
           (insertA st.users uid urec) (insertA st.position_map uid ⟨0, 0⟩)
           env.mediaInfo),
         PAction.enqueue qe] ∧
      qe.event = "user_joined" ∧ qe.user_id = uid ∧
      qe.exclude_ws = some ws) ∧
    (∀ (running : Bool) (subs : List Conn) (e : QEvent) (c : Conn)
       (p : Conn × QEvent), e.exclude_ws = some c →
       p ∈ broadcastStep running subs e → ¬ (p.1 = c)) := by
  constructor
  · have hstep : parserStep env spaceId ws st msg =
        joinStep env spaceId ws st msg := by
      simp [parserStep, hev, falsyO,
      show lowerStr "join" = "join" from by decide]
    rw [hstep]
    unfold joinStep
    simp only [hu, hs, falsyO, huf, hsf, Option.getD_some]
    simp only [hrec]
    exact ⟨_, _, rfl, rfl, rfl, rfl⟩
  · intro running subs e c p he hp
    unfold broadcastStep at hp
    by_cases hcond : running = true ∧ subs ≠ []
    · rw [if_pos hcond] at hp
      rcases List.mem_map.mp hp with ⟨c2, hc2, hpe⟩
      have hne := (List.mem_filter.mp hc2).2
      intro hpc
      rw [← hpe] at hpc
      simp only at hpc
      rw [hpc, ← he] at hne
      simp at hne
    · rw [if_neg hcond] at hp
      simp at hp

/-- Witness for `c6_space_state_before_user_joined`: u1 joins s1 on
connection 2. -/
theorem c6_space_state_before_user_joined_witness :
    (fJoin.event = some "join" ∧ penvTwo.getUser "u1" =
      some ⟨"u1", "Alice"⟩) ∧
    ((∃ mapId qe,
      (parserStep penvTwo "s1" 2 stOldConn fJoin).acts =
        [PAction.sendText 2 (OutFrame.spaceState "s1" mapId
           (insertA stOldConn.users "u1" ⟨"u1", "Alice"⟩)
           (insertA stOldConn.position_map "u1" ⟨0, 0⟩)
           penvTwo.mediaInfo),
         PAction.enqueue qe] ∧
      qe.event = "user_joined" ∧ qe.user_id = "u1" ∧
      qe.exclude_ws = some 2) ∧
    (∀ (running : Bool) (subs : List Conn) (e : QEvent) (c : Conn)
       (p : Conn × QEvent), e.exclude_ws = some c →
       p ∈ broadcastStep running subs e → ¬ (p.1 = c))) :=
  ⟨⟨rfl, rfl⟩,
   c6_space_state_before_user_joined penvTwo "s1" 2 stOldConn fJoin "u1"
     ⟨"u1", "Alice"⟩ rfl rfl (by decide) rfl (by decide) rfl⟩

/-! ## C9 — unhandled event names -/

/-- A frame whose event field is present but empty. -/
def fEmptyEvent : Frame := { event := some "" }

/-- C9 counterexample: the frame with the present-but-empty event string
matches none of the handled event names, yet the parser replies with an
error frame (Python truthiness folds `""` into the missing-event branch), so
the claim that every present-but-unhandled event value draws no reply is
false at this input. -/
theorem c9_counterexample :
    fEmptyEvent.event = some "" ∧ "" ∉ handledEvents ∧
    (parserStep penvTwo "s1" 7 {} fEmptyEvent).acts =
      [PAction.sendText 7 (OutFrame.errorMsg
        "Invalid message, event field is required")] := by
  decide

/-- C9 (amended): an inbound frame whose event field is present and
non-empty but, lowercased, matches none of the handled event names produces
no action at all — no reply frame, no enqueue, no hand-off — and leaves the
entire parser-visible state (users, positions, map id, subscribers, queue,
bindings) unchanged. -/
theorem c9_amended_unknown_event_noop (env : PEnv) (spaceId : String)
    (ws : Conn) (st : PState) (msg : Frame) (ev : String)
    (hev : msg.event = some ev) (hne : ¬ ev = "")
    (hh : lowerStr ev ∉ handledEvents) :
    parserStep env spaceId ws st msg = ⟨st, [], PCtl.next⟩ := by
  simp only [handledEvents, List.mem_cons, List.mem_singleton] at hh
  push_neg at hh
  obtain ⟨h1, h2, h3, h4, h5, h6, h7, h8, h9, h10, h11, h12⟩ := hh
  simp [parserStep, chatMediaStep, hev, falsyO, hne, h1, h2, h3, h4, h5, h6,
    h7, h8, h9, h10, h11, h12.1]

/-- Witness for `c9_amended_unknown_event_noop` at the event name
`dance`. -/
theorem c9_amended_unknown_event_noop_witness :
    ((Frame.mk (some "dance") none none none none none none none none
       []).event = some "dance" ∧ ¬ ("dance" = "") ∧
     lowerStr "dance" ∉ handledEvents) ∧
    parserStep penvTwo "s1" 7 {}
      (Frame.mk (some "dance") none none none none none none none none []) =
      ⟨({} : PState), [], PCtl.next⟩ :=
  ⟨⟨rfl, by decide, by decide⟩,
   c9_amended_unknown_event_noop penvTwo "s1" 7 {} _ "dance" rfl (by decide)
     (by decide)⟩

/-! ## C2 — positions ⊆ users -/

/-- C2 counterexample: a `position_move` frame for a user id that never
joined writes a `position_map` entry although `users` has no such key, so
handling a position_move can create a positions entry for a user id absent
from users. -/
theorem c2_counterexample :
    containsA (parserStep penvTwo "s1" 7 {} fMoveGhost).st.position_map "v" =
      true ∧
    containsA (parserStep penvTwo "s1" 7 {} fMoveGhost).st.users "v" =
      false := by
  decide

theorem invUP_joinStep (env : PEnv) (spaceId : String) (ws : Conn)
    (st : PState) (msg : Frame) (h : InvUP st) :
    InvUP (joinStep env spaceId ws st msg).st := by
  by_cases hf : falsyO msg.user_id = true ∨ falsyO msg.space_id = true
  · have hu2 : (joinStep env spaceId ws st msg).st.users = st.users := by
      simp [joinStep, hf]
    have hp2 : (joinStep env spaceId ws st msg).st.position_map =
        st.position_map := by
      simp [joinStep, hf]
    intro k hk
    rw [hp2] at hk
    rw [hu2]
    exact h k hk
  · by_cases hsid : msg.space_id.getD "" = spaceId
    · rcases hg : env.getUser (msg.user_id.getD "") with _ | urec
      · have hu2 : (joinStep env spaceId ws st msg).st.users = st.users := by
          simp [joinStep, hf, hsid, hg]
        have hp2 : (joinStep env spaceId ws st msg).st.position_map =
            st.position_map := by
          simp [joinStep, hf, hsid, hg]
        intro k hk
        rw [hp2] at hk
        rw [hu2]
        exact h k hk
      · have hu2 : (joinStep env spaceId ws st msg).st.users =
            insertA st.users (msg.user_id.getD "") urec := by
          simp [joinStep, hf, hsid, hg]
        have hp2 : (joinStep env spaceId ws st msg).st.position_map =
            insertA st.position_map (msg.user_id.getD "") ⟨0, 0⟩ := by
          simp [joinStep, hf, hsid, hg]
        intro k hk
        rw [hp2, containsA_insertA] at hk
        rw [hu2, containsA_insertA]
        rcases hk with hk | hk
        · exact Or.inl hk
        · exact Or.inr (h k hk)
    · have hu2 : (joinStep env spaceId ws st msg).st.users = st.users := by
        simp [joinStep, hf, hsid]
      have hp2 : (joinStep env spaceId ws st msg).st.position_map =
          st.position_map := by
        simp [joinStep, hf, hsid]
      intro k hk
      rw [hp2] at hk
      rw [hu2]
      exact h k hk

theorem invUP_positionMoveStep (ws : Conn) (st : PState) (msg : Frame)
    (h : InvUP st)
    (hguard : containsA st.users (msg.user_id.getD "") = true) :
    InvUP (positionMoveStep ws st msg).st := by
  by_cases hf : falsyO msg.user_id = true ∨ falsyO msg.space_id = true ∨
      msg.nx.isNone = true ∨ msg.ny.isNone = true
  · have hu2 : (positionMoveStep ws st msg).st.users = st.users := by
      simp only [positionMoveStep, if_pos hf]
    have hp2 : (positionMoveStep ws st msg).st.position_map =
        st.position_map := by
      simp only [positionMoveStep, if_pos hf]
    intro k hk
    rw [hp2] at hk
    rw [hu2]
    exact h k hk
  · have hu2 : (positionMoveStep ws st msg).st.users = st.users := by
      simp only [positionMoveStep, if_neg hf]
    have hp2 : (positionMoveStep ws st msg).st.position_map =
        insertA st.position_map (msg.user_id.getD "")
          ⟨msg.nx.getD 0, msg.ny.getD 0⟩ := by
      simp only [positionMoveStep, if_neg hf]
    intro k hk
    rw [hp2, containsA_insertA] at hk
    rw [hu2]
    rcases hk with hk | hk
    · rw [hk]
      exact hguard
    · exact h k hk

set_option maxHeartbeats 1000000 in
theorem chatMediaStep_st (env : PEnv) (spaceId : String) (ws : Conn)
    (st : PState) (msg : Frame) (e : String) :
    (chatMediaStep env spaceId ws st msg e).st = st := by
  unfold chatMediaStep
  split_ifs <;> rfl

theorem parserStep_st_cases (env : PEnv) (spaceId : String) (ws : Conn)
    (st : PState) (msg : Frame) :
    (parserStep env spaceId ws st msg).st = st ∨
    (parserStep env spaceId ws st msg).st =
      (joinStep env spaceId ws st msg).st ∨
    ((parserStep env spaceId ws st msg).st =
      (positionMoveStep ws st msg).st ∧
     lowerStr (msg.event.getD "") = "position_move") := by
  by_cases hf : falsyO msg.event = true
  · left
    simp [parserStep, hf]
  · by_cases h1 : lowerStr (msg.event.getD "") = "join"
    · right; left
      simp [parserStep, hf, h1]
    · by_cases h2 : lowerStr (msg.event.getD "") = "position_move"
      · right; right
        exact ⟨by simp [parserStep, hf, h1, h2], h2⟩
      · left
        have hc : (parserStep env spaceId ws st msg).st =
            (chatMediaStep env spaceId ws st msg
              (lowerStr (msg.event.getD ""))).st := by
          simp [parserStep, hf, h1, h2]
        rw [hc, chatMediaStep_st]

theorem invUP_parserStep (env : PEnv) (spaceId : String) (ws : Conn)
    (st : PState) (msg : Frame) (h : InvUP st)
    (hguard : guardB st (InItem.frame msg) = true) :
    InvUP (parserStep env spaceId ws st msg).st := by
  rcases parserStep_st_cases env spaceId ws st msg with hc | hc | ⟨hc, hm⟩
  · rw [hc]
    exact h
  · rw [hc]
    exact invUP_joinStep env spaceId ws st msg h
  · rw [hc]
    refine invUP_positionMoveStep ws st msg h ?_
    simpa [guardB, hm] using hguard

theorem invUP_removeUser (spaceId : String) (st : PState)
    (r : Option String) (h : InvUP st) :
    InvUP (removeUser spaceId st r).1 := by
  cases r with
  | none => exact h
  | some u =>
    intro k hk
    have hk2 : containsA (eraseA st.position_map u) k = true := hk
    rw [containsA_eraseA] at hk2
    show containsA (eraseA st.users u) k = true
    rw [containsA_eraseA]
    exact ⟨hk2.1, h k hk2.2⟩

theorem invUP_disconnectStep (spaceId : String) (ws : Conn) (st : PState)
    (h : InvUP st) : InvUP (disconnectStep spaceId ws st).1 := by
  unfold disconnectStep
  exact invUP_removeUser spaceId st _ h

/-- C2 (amended): starting from a state in which every positions key is a
users key, any legal inbound trace — where legality additionally requires
each `position_move` frame to carry the id of a user currently in `users`,
which the code itself does not enforce — preserves the inclusion: joins add
the user to both maps, disconnects remove it from both, and all other
handled or unhandled events touch neither. -/
theorem c2_amended_positions_subset_users (env : PEnv) (spaceId : String)
    (ws : Conn) :
    ∀ (items : List InItem) (st : PState), InvUP st →
      legalB env spaceId ws st items = true →
      InvUP (runItems env spaceId ws st items) := by
  intro items
  induction items with
  | nil =>
    intro st h _
    exact h
  | cons it rest ih =>
    intro st h hlegal
    rw [legalB, Bool.and_eq_true] at hlegal
    have hstep : InvUP (stepItem env spaceId ws st it) := by
      cases it with
      | frame f => exact invUP_parserStep env spaceId ws st f h hlegal.1
      | disconnect => exact invUP_disconnectStep spaceId ws st h
    exact ih (stepItem env spaceId ws st it) hstep hlegal.2

/-- A legal two-step trace: u1 joins, then moves. -/
def itemsLegal : List InItem :=
  [InItem.frame fJoin,
   InItem.frame { event := some "position_move", user_id := some "u1",
                  space_id := some "s1", nx := some 3, ny := some 4 }]

/-- Witness for `c2_amended_positions_subset_users` on the join-then-move
trace. -/
theorem c2_amended_positions_subset_users_witness :
    legalB penvTwo "s1" 7 {} itemsLegal = true ∧
    InvUP (runItems penvTwo "s1" 7 {} itemsLegal) :=
  ⟨by decide,
   c2_amended_positions_subset_users penvTwo "s1" 7 itemsLegal {}
     (fun k hk => by simp [containsA, lookupA] at hk) (by decide)⟩

/-! ## C10 — dequeue with no live subscribers -/

theorem broadcastDrain_get? (cfgs : List (Bool × List Conn)) :
    ∀ (q : List QEvent) (j : Nat) (cj : Bool × List Conn) (ej : QEvent),
    cfgs.get? j = some cj → q.get? j = some ej →
    (broadcastDrain cfgs q).get? j = some (broadcastStep cj.1 cj.2 ej) := by
  induction cfgs with
  | nil =>
    intro q j cj ej hc _
    simp at hc
  | cons c cs ih =>
    intro q j cj ej hc hq
    cases q with
    | nil => simp at hq
    | cons e es =>
      cases j with
      | zero =>
        simp only [List.get?_cons_zero, Option.some_inj] at hc hq
        subst hc
        subst hq
        simp [broadcastDrain]
      | succ n =>
        simp only [List.get?_cons_succ] at hc hq
        simpa [broadcastDrain] using ih es n cj ej hc hq

theorem broadcastStep_mem (running : Bool) (subs : List Conn) (e : QEvent)
    (p : Conn × QEvent) (hp : p ∈ broadcastStep running subs e) :
    (running = true ∧ subs ≠ []) ∧ p.2 = { e with exclude_ws := none } := by
  unfold broadcastStep at hp
  by_cases hcond : running = true ∧ subs ≠ []
  · rw [if_pos hcond] at hp
    rcases List.mem_map.mp hp with ⟨c2, _, hpe⟩
    exact ⟨hcond, by rw [← hpe]⟩
  · rw [if_neg hcond] at hp
    simp at hp

/-- C10: if the broadcast loop dequeues the `i`-th event while the running
flag is down or the subscriber list is empty, that iteration sends the event
to no connection; the loop consumes queue positions strictly in order and
never requeues, and every send any iteration performs carries the event
dequeued at that iteration under a true condition — so the dropped event is
never delivered afterwards. -/
theorem c10_dropped_dequeue (cfgs : List (Bool × List Conn))
    (q : List QEvent) (i : Nat) (ci : Bool × List Conn) (ei : QEvent)
    (hci : cfgs.get? i = some ci) (hei : q.get? i = some ei)
    (hcond : ¬ (ci.1 = true ∧ ci.2 ≠ [])) :
    (broadcastDrain cfgs q).get? i = some [] ∧
    broadcastRemaining cfgs q = q.drop cfgs.length ∧
    (∀ (j : Nat) (l : List (Conn × QEvent)) (p : Conn × QEvent)
       (cj : Bool × List Conn) (ej : QEvent),
       (broadcastDrain cfgs q).get? j = some l → p ∈ l →
       cfgs.get? j = some cj → q.get? j = some ej →
       (cj.1 = true ∧ cj.2 ≠ []) ∧
       p.2 = { ej with exclude_ws := none }) := by
  refine ⟨?_, rfl, ?_⟩
  · rw [broadcastDrain_get? cfgs q i ci ei hci hei]
    unfold broadcastStep
    rw [if_neg hcond]
  · intro j l p cj ej hl hp hcj hej
    rw [broadcastDrain_get? cfgs q j cj ej hcj hej] at hl
    have hl2 : broadcastStep cj.1 cj.2 ej = l := by
      injection hl
    rw [← hl2] at hp
    exact broadcastStep_mem cj.1 cj.2 ej p hp

/-- Witness for `c10_dropped_dequeue`: two queued events, the first dequeued
with no subscribers, the second with a live subscriber. -/
theorem c10_dropped_dequeue_witness :
    ([(true, ([] : List Conn)), (true, [4])].get? 0 = some (true, []) ∧
     [({ event := "user_left" } : QEvent),
      { event := "position_update" }].get? 0 =
       some { event := "user_left" }) ∧
    ((broadcastDrain [(true, []), (true, [4])]
       [{ event := "user_left" }, { event := "position_update" }]).get? 0 =
       some [] ∧
     broadcastRemaining [(true, []), (true, [4])]
       [{ event := "user_left" }, { event := "position_update" }] =
       ([{ event := "user_left" }, { event := "position_update" }] :
         List QEvent).drop 2 ∧
     (∀ (j : Nat) (l : List (Conn × QEvent)) (p : Conn × QEvent)
        (cj : Bool × List Conn) (ej : QEvent),
        (broadcastDrain [(true, []), (true, [4])]
          [{ event := "user_left" }, { event := "position_update" }]).get?
          j = some l → p ∈ l →
        ([(true, ([] : List Conn)), (true, [4])]).get? j = some cj →
        ([({ event := "user_left" } : QEvent),
          { event := "position_update" }]).get? j = some ej →
        (cj.1 = true ∧ cj.2 ≠ []) ∧
        p.2 = { ej with exclude_ws := none })) :=
  ⟨⟨rfl, rfl⟩,
   c10_dropped_dequeue [(true, []), (true, [4])]
     [{ event := "user_left" }, { event := "position_update" }] 0
     (true, []) { event := "user_left" } rfl rfl (by simp)⟩

end Metaverse
